import Mathlib

/-!
# Verification of kornia-rs feature detection (kornia-imgproc/features.rs,
# kornia-tracking/image_utilities.rs)

Shallow embedding of the response-map functions (`gftt_response`,
`hessian_response`, `dog_response`) and of the tracking utilities
(`point_in_bound`, `se2_exp_matrix`, `detect_key_points`).

Conventions of the embedding:
* `f32` pixel values and scores are modelled as `ℚ` (the concrete claims only
  involve small dyadic values on which `f32` arithmetic is exact);
* `u32` machine integers are modelled as `Nat` with explicit `% 2^32`
  (`add32`, `sub32`, `mul32`) at the operations where Rust's release-mode
  wrapping semantics matters;
* external collaborators that live outside the two embedded source files
  (`gaussian_blur`, `spatial_gradient_float`, the `powf` float intrinsic,
  the `corners_fast9` detector, and the `cos`/`sin` float intrinsics) are
  taken as function parameters, so every theorem quantifies over them;
* the `while` loop of `detect_key_points` is embedded with explicit fuel
  (returning `Option`, `none` = fuel exhausted), and termination is the
  theorem that the fuel bound `9` is never exhausted.
-/

namespace KorniaRs

/-- An owned single-channel float image: `(rows, cols)` plus a row-major
pixel buffer.  Mirrors `kornia_image::Image<f32, 1>`. -/
structure Image where
  rows : Nat
  cols : Nat
  data : List ℚ
  deriving DecidableEq, Repr

/-- `Image::size()`; two images compare equal exactly when both dimensions
agree. -/
def Image.size (i : Image) : Nat × Nat := (i.rows, i.cols)

/-- The error variant used by features.rs:
`ImageError::InvalidImageSize(src.cols(), src.rows(), dst.cols(), dst.rows())`. -/
inductive ImageError where
  | invalidImageSize (c1 r1 c2 r2 : Nat)
  deriving DecidableEq, Repr

/-- Elementwise binary tensor operation over two images (the
`TensorOps::{mul,add,sub,min}` operations of kornia-tensor-ops, which the
source applies only to equal-shaped scratch images). -/
def Image.zipOp (f : ℚ → ℚ → ℚ) (a b : Image) : Image :=
  ⟨a.rows, a.cols, List.zipWith f a.data b.data⟩

/-- `TensorOps::mul` (elementwise). -/
def Image.mulI (a b : Image) : Image := Image.zipOp (fun x y => x * y) a b

/-- `TensorOps::add` (elementwise). -/
def Image.addI (a b : Image) : Image := Image.zipOp (fun x y => x + y) a b

/-- `TensorOps::sub` (elementwise). -/
def Image.subI (a b : Image) : Image := Image.zipOp (fun x y => x - y) a b

/-- `TensorOps::min` (elementwise). -/
def Image.minI (a b : Image) : Image := Image.zipOp min a b

/-- `TensorOps::mul_scalar`. -/
def Image.mulScalar (a : Image) (s : ℚ) : Image :=
  ⟨a.rows, a.cols, a.data.map (fun x => x * s)⟩

/-- `TensorOps::abs` (elementwise). -/
def Image.absI (a : Image) : Image :=
  ⟨a.rows, a.cols, a.data.map (fun x => |x|)⟩

/-- `TensorOps::powf` with exponent `p`, elementwise through the float
`powf` intrinsic `pw` (external, passed as a parameter). -/
def Image.powfI (pw : ℚ → ℚ → ℚ) (a : Image) (p : ℚ) : Image :=
  ⟨a.rows, a.cols, a.data.map (fun x => pw x p)⟩

/-- `dst.as_slice_mut().iter_mut().zip(s)` overwrite: the first
`min (d.length) (s.length)` destination entries take the new values, any
remaining destination entries are untouched. -/
def overwrite (d s : List ℚ) : List ℚ :=
  List.zipWith (fun _ y => y) d s ++ d.drop s.length

/-- `_get_kernel_size` of features.rs: `(2.0 * 4.0 * sigma + 1.0) as usize`
(Rust float-to-usize cast truncates toward zero and saturates at 0, which
is `Int.toNat ∘ Int.floor` on the nonnegative side and `0` below), then
incremented by one if even. -/
def get_kernel_size (sigma : ℚ) : Nat :=
  let ksize := (⌊2 * 4 * sigma + 1⌋).toNat
  if ksize % 2 = 0 then ksize + 1 else ksize

/-- One output pixel of `hessian_response` at flat index `i`
(`row = i / cols`, `col = i % cols`): the first/last row and column keep
the destination's previous value; an interior pixel receives
`dxx * dyy - dxy * dxy` where, in the source's naming,
`v11 = src[i-cols-1]`, `v12 = src[i-cols]`, `v13 = src[i-cols+1]`,
`v21 = src[i-1]`, `v22 = src[i]`, `v23 = src[i+1]`,
`v31 = src[i+cols-1]`, `v32 = src[i+cols]`, `v33 = src[i+cols+1]`,
`dxx = v21 - 2*v22 + v23`, `dyy = v12 - 2*v22 + v32`,
`dxy = 0.25 * (v31 - v11 - v33 + v13)` (the `let`s of the source are
inlined here). -/
def hessianPixel (src : Image) (dstData : List ℚ) (i : Nat) : ℚ :=
  if i / src.cols = 0 ∨ i / src.cols = src.rows - 1
      ∨ i % src.cols = 0 ∨ i % src.cols = src.cols - 1 then
    dstData.getD i 0
  else
    (src.data.getD (i - 1) 0 - 2 * src.data.getD i 0 + src.data.getD (i + 1) 0) *
      (src.data.getD (i - src.cols) 0 - 2 * src.data.getD i 0
        + src.data.getD (i + src.cols) 0) -
    (1/4 * (src.data.getD (i + src.cols - 1) 0 - src.data.getD (i - src.cols - 1) 0
        - src.data.getD (i + src.cols + 1) 0 + src.data.getD (i - src.cols + 1) 0)) *
    (1/4 * (src.data.getD (i + src.cols - 1) 0 - src.data.getD (i - src.cols - 1) 0
        - src.data.getD (i + src.cols + 1) 0 + src.data.getD (i - src.cols + 1) 0))

/-- `hessian_response`'s write pass over the destination buffer.  Mirrors
the `par_chunks_exact_mut` loop of features.rs (the rows are independent
and each output entry is written exactly once, so the sequential
index-major order used here is observationally identical). -/
def hessianData (src : Image) (dstData : List ℚ) : List ℚ :=
  (List.range (src.rows * src.cols)).map (hessianPixel src dstData)

/-- `hessian_response(src, dst)`: shape check, then the stencil pass.
Returns the updated destination image.  This function describes the
returning executions only; the rayon panic on zero-width inputs is made
explicit in `hessian_response_opt` below. -/
def hessian_response (src dst : Image) : Except ImageError Image :=
  if src.size ≠ dst.size then
    .error (.invalidImageSize src.cols src.rows dst.cols dst.rows)
  else
    .ok ⟨dst.rows, dst.cols, hessianData src dst.data⟩

/-- `hessian_response` with its failure mode made explicit: after the
shape check, the source calls
`dst.as_slice_mut().par_chunks_exact_mut(src.cols())`, and rayon's
`par_chunks_exact_mut` panics when the chunk size is 0, so on an
equal-shaped pair with `cols = 0` the function panics instead of
returning (`none` models that panic).  On every other input it agrees
with `hessian_response` (lemma `hessian_response_opt_eq`). -/
def hessian_response_opt (src dst : Image) : Option (Except ImageError Image) :=
  if src.size ≠ dst.size then
    some (.error (.invalidImageSize src.cols src.rows dst.cols dst.rows))
  else if src.cols = 0 then
    none
  else
    some (.ok ⟨dst.rows, dst.cols, hessianData src dst.data⟩)

/-- `gftt_response(src, dst)` parameterised by the external collaborators:
`grad` is `spatial_gradient_float` (producing the `(dx, dy)` pair), `blur`
is `gaussian_blur` applied with a square kernel of the given size and equal
sigmas, `pw` is the float `powf` intrinsic.  Mirrors the structure-tensor
pipeline of features.rs. -/
def gftt_response (grad : Image → Image × Image)
    (blur : Image → Nat → ℚ → Image) (pw : ℚ → ℚ → ℚ)
    (src dst : Image) : Except ImageError Image :=
  if src.size ≠ dst.size then
    .error (.invalidImageSize src.cols src.rows dst.cols dst.rows)
  else
    let g := grad src
    let dx := g.1
    let dy := g.2
    let dx2 := dx.mulI dx
    let dy2 := dy.mulI dy
    let dxy := dx.mulI dy
    let dx2_g := blur dx2 7 1
    let dy2_g := blur dy2 7 1
    let dxy_g := blur dxy 7 1
    let det_m := (dx2_g.mulI dy2_g).subI (dxy_g.mulI dxy_g)
    let trace_m := dx2_g.addI dy2_g
    let e1 := (trace_m.addI
      (((((trace_m.mulI trace_m).subI (det_m.mulScalar 4)).absI).powfI pw (1/2)))).mulScalar (1/2)
    let e2 := (trace_m.subI
      (((((trace_m.mulI trace_m).subI (det_m.mulScalar 4)).absI).powfI pw (1/2)))).mulScalar (1/2)
    let score := e1.minI e2
    .ok ⟨dst.rows, dst.cols, overwrite dst.data score.data⟩

/-- `dog_response(src, dst, sigma1, sigma2)` parameterised by the external
`gaussian_blur` collaborator.  Kernel sizes come from `_get_kernel_size`;
the destination receives `blur(sigma2) - blur(sigma1)` elementwise.  Note:
no sigma validation is performed, exactly as in features.rs. -/
def dog_response (blur : Image → Nat → ℚ → Image)
    (src dst : Image) (sigma1 sigma2 : ℚ) : Except ImageError Image :=
  if src.size ≠ dst.size then
    .error (.invalidImageSize src.cols src.rows dst.cols dst.rows)
  else
    let ks1 := get_kernel_size sigma1
    let ks2 := get_kernel_size sigma2
    let gauss1 := blur src ks1 sigma1
    let gauss2 := blur src ks2 sigma2
    .ok ⟨dst.rows, dst.cols,
      overwrite dst.data (List.zipWith (fun g2 g1 => g2 - g1) gauss2.data gauss1.data)⟩

/-! ## kornia-tracking/image_utilities.rs -/

/-- `2^32`, the modulus of Rust `u32` arithmetic. -/
def U32 : Nat := 4294967296

/-- Wrapping `u32` addition. -/
def add32 (a b : Nat) : Nat := (a + b) % U32

/-- Wrapping `u32` subtraction (release-mode semantics of `a - b`). -/
def sub32 (a b : Nat) : Nat := (a + (U32 - b % U32)) % U32

/-- Wrapping `u32` multiplication. -/
def mul32 (a b : Nat) : Nat := (a * b) % U32

/-- `imageproc::corners::Corner`: `u32` pixel coordinates plus an `f32`
score. -/
structure Corner where
  x : Nat
  y : Nat
  score : ℚ
  deriving DecidableEq, Repr

/-- `point_in_bound(keypoint, height, width, radius)`: the keypoint lies at
least `radius` pixels from every edge.  The two upper bounds are computed
with `u32` subtraction `width - radius` / `height - radius`, with no guard
against `radius` exceeding the dimension (wrapping semantics). -/
def point_in_bound (keypoint : Corner) (height width radius : Nat) : Bool :=
  decide (radius ≤ keypoint.x) && decide (keypoint.x ≤ sub32 width radius)
    && decide (radius ≤ keypoint.y) && decide (keypoint.y ≤ sub32 height radius)

/-- `glam::Vec3` with rational entries. -/
structure Vec3 where
  x : ℚ
  y : ℚ
  z : ℚ
  deriving DecidableEq, Repr

/-- `glam::Mat3` as its `from_cols_array` column-major 9-tuple:
`(m00, m10, m20, m01, m11, m21, m02, m12, m22)`. -/
structure Mat3 where
  m00 : ℚ
  m10 : ℚ
  m20 : ℚ
  m01 : ℚ
  m11 : ℚ
  m21 : ℚ
  m02 : ℚ
  m12 : ℚ
  m22 : ℚ
  deriving DecidableEq, Repr

/-- `f32::EPSILON = 2⁻²³`. -/
def f32EPSILON : ℚ := 1 / 8388608

/-- `se2_exp_matrix(a)`, parameterised by the float `cos`/`sin` intrinsics.
Below `f32::EPSILON` in `|theta|` it takes the second-order Taylor branch
for `sin θ / θ` and `(1 - cos θ) / θ`; the rotation block always uses
`cos`/`sin` directly. -/
def se2_exp_matrix (fcos fsin : ℚ → ℚ) (a : Vec3) : Mat3 :=
  let theta := a.z
  let p : ℚ × ℚ :=
    if |theta| < f32EPSILON then
      let theta_sq := theta * theta
      (1 - theta_sq / 6, 1/2 * theta - theta * theta_sq / 24)
    else
      (fsin theta / theta, (1 - fcos theta) / theta)
  let sin_theta_by_theta := p.1
  let one_minus_cos_theta_by_theta := p.2
  let t_x := sin_theta_by_theta * a.x - one_minus_cos_theta_by_theta * a.y
  let t_y := one_minus_cos_theta_by_theta * a.x + sin_theta_by_theta * a.y
  ⟨fcos theta, -(fsin theta), 0,
   fsin theta, fcos theta, 0,
   t_x, t_y, 1⟩

/-- `image::GrayImage`: dimensions plus a pixel lookup function (8-bit
values as `Nat`). -/
structure GrayImage where
  width : Nat
  height : Nat
  pix : Nat → Nat → Nat

/-- `image.view(x, y, w, h).to_image()`: the w×h sub-image rooted at
`(x, y)`. -/
def GrayImage.view (img : GrayImage) (x y w h : Nat) : GrayImage :=
  ⟨w, h, fun i j => img.pix (x + i) (y + j)⟩

/-- Rust's stable ascending insertion of a corner into a score-sorted list
(helper for `sortByScore`). -/
def insertCorner (p : Corner) : List Corner → List Corner
  | [] => [p]
  | q :: rest =>
    if p.score ≤ q.score then p :: q :: rest else q :: insertCorner p rest

/-- `fast_corners.sort_by(|a, b| a.score.partial_cmp(&b.score).unwrap())`:
a stable sort by ascending score (embedded as stable insertion sort, which
agrees with Rust's stable merge sort on every input). -/
def sortByScore : List Corner → List Corner
  | [] => []
  | p :: rest => insertCorner p (sortByScore rest)

/-- `point.x += x; point.y += y`: translate a cell-local corner into
frame-global coordinates (`u32` additions). -/
def translateCorner (cellX cellY : Nat) (p : Corner) : Corner :=
  ⟨add32 p.x cellX, add32 p.y cellY, p.score⟩

/-- The inner `for point in fast_corners` loop of `detect_key_points`:
stop as soon as `points_added` reaches the quota, translate each corner to
global coordinates, and accept it (appending it and bumping the counter)
iff `point_in_bound(point, h, w, 19)`.  Returns the accepted corners in
order together with the final counter. -/
def acceptPoints (h w cellX cellY quota : Nat) :
    List Corner → Nat → List Corner × Nat
  | [], added => ([], added)
  | p :: rest, added =>
    if quota ≤ added then ([], added)
    else
      if point_in_bound (translateCorner cellX cellY p) h w 19 then
        (translateCorner cellX cellY p ::
            (acceptPoints h w cellX cellY quota rest (added + 1)).1,
          (acceptPoints h w cellX cellY quota rest (added + 1)).2)
      else
        acceptPoints h w cellX cellY quota rest added

/-- The per-cell `while points_added < num_points_in_cell && threshold >= 10`
loop of `detect_key_points`, with explicit fuel (`none` = fuel exhausted):
run the FAST detector `fast` on the cell view at the current threshold,
sort by ascending score, accept points, then either break before an
underflow (`threshold < 5`) or decrement the threshold by 5. -/
def cellWhile (fast : GrayImage → Nat → List Corner) (view : GrayImage)
    (h w cellX cellY quota : Nat) :
    Nat → Nat → Nat → List Corner → Option (List Corner)
  | 0, _, _, _ => none
  | fuel + 1, added, threshold, acc =>
    if added < quota ∧ 10 ≤ threshold then
      if threshold < 5 then
        some (acc ++
          (acceptPoints h w cellX cellY quota (sortByScore (fast view threshold)) added).1)
      else
        cellWhile fast view h w cellX cellY quota fuel
          (acceptPoints h w cellX cellY quota (sortByScore (fast view threshold)) added).2
          (threshold - 5)
          (acc ++
            (acceptPoints h w cellX cellY quota (sortByScore (fast view threshold)) added).1)
    else some acc

/-- Read a grid occupancy counter, `grids[gy][gx]` (out-of-range reads give
the default 0; the detection loop only indexes in range in practice). -/
def gridGet (grids : List (List Nat)) (gy gx : Nat) : Nat :=
  (grids.getD gy []).getD gx 0

/-- Guarded occupancy increment: mirrors
`if grid_y < grids.len() && grid_x < grids[grid_y].len() { grids[grid_y][grid_x] += 1 }`.
The counters are only ever incremented and compared with 0, so the `i32`
counter is modelled as `Nat`. -/
def gridInc (grids : List (List Nat)) (gy gx : Nat) : List (List Nat) :=
  if gy < grids.length ∧ gx < (grids.getD gy []).length then
    grids.set gy ((grids.getD gy []).set gx (gridGet grids gy gx + 1))
  else grids

/-- The seeding loop: every existing corner inside the valid band
`[x_start, x_stop + grid_size) × [y_start, y_stop + grid_size)` increments
its cell's occupancy counter. -/
def seedGrids (x_start y_start x_stop y_stop grid_size : Nat)
    (current_corners : List Corner) (grids0 : List (List Nat)) : List (List Nat) :=
  current_corners.foldl
    (fun grids c =>
      if x_start ≤ c.x ∧ y_start ≤ c.y ∧ c.x < add32 x_stop grid_size
          ∧ c.y < add32 y_stop grid_size then
        gridInc grids ((c.y - y_start) / grid_size) ((c.x - x_start) / grid_size)
      else grids)
    grids0

/-- `(start..stop).step_by(step)` as a list of the visited values. -/
def stepRange (start stop step : Nat) : List Nat :=
  (List.range ((stop - start + step - 1) / step)).map (fun i => start + i * step)

/-- `x_start = (w % grid_size) / 2`. -/
def gridStart (w grid_size : Nat) : Nat := (w % grid_size) / 2

/-- `x_stop = x_start + grid_size * (w / grid_size - 1) + 1`, every
operation in wrapping `u32` arithmetic (in particular
`w / grid_size - 1` wraps to `2^32 - 1` when `grid_size > w`). -/
def gridStop (w grid_size : Nat) : Nat :=
  add32 (add32 (gridStart w grid_size) (mul32 grid_size (sub32 (w / grid_size) 1))) 1

/-- The occupancy grid of a detection call after seeding:
`rows = h / grid_size + 1` by `cols = w / grid_size + 1` zero-initialised
counters, seeded from `current_corners`. -/
def seededGrids (image : GrayImage) (grid_size : Nat)
    (current_corners : List Corner) : List (List Nat) :=
  let h := image.height
  let w := image.width
  let rows := h / grid_size + 1
  let cols := w / grid_size + 1
  seedGrids (gridStart w grid_size) (gridStart h grid_size)
    (gridStop w grid_size) (gridStop h grid_size) grid_size current_corners
    (List.replicate rows (List.replicate cols 0))

/-- One grid cell's contribution to the detection result: skipped cells
(occupancy counter `> 0`) contribute nothing; empty cells run the
threshold-decreasing FAST loop on their `grid_size × grid_size` view
(fuel 9 suffices for the thresholds 40, 35, …, 10). -/
def cellContribution (fast : GrayImage → Nat → List Corner) (image : GrayImage)
    (grids : List (List Nat)) (grid_size x_start y_start quota x y : Nat) :
    Option (List Corner) :=
  if 0 < gridGet grids ((y - y_start) / grid_size) ((x - x_start) / grid_size) then some []
  else
    cellWhile fast (image.view x y grid_size grid_size)
      image.height image.width x y quota 9 0 40 []

/-- The inner `for y in (y_start..y_stop).step_by(grid_size)` loop for a
fixed column position `x`. -/
def colLoop (fast : GrayImage → Nat → List Corner) (image : GrayImage)
    (grids : List (List Nat)) (grid_size x_start y_start quota x : Nat) :
    List Nat → Option (List Corner)
  | [] => some []
  | y :: ys =>
    match cellContribution fast image grids grid_size x_start y_start quota x y with
    | none => none
    | some ps =>
      match colLoop fast image grids grid_size x_start y_start quota x ys with
      | none => none
      | some rest => some (ps ++ rest)

/-- The outer `for x in (x_start..x_stop).step_by(grid_size)` loop. -/
def rowLoop (fast : GrayImage → Nat → List Corner) (image : GrayImage)
    (grids : List (List Nat)) (grid_size x_start y_start quota : Nat)
    (ys : List Nat) : List Nat → Option (List Corner)
  | [] => some []
  | x :: xs =>
    match colLoop fast image grids grid_size x_start y_start quota x ys with
    | none => none
    | some ps =>
      match rowLoop fast image grids grid_size x_start y_start quota ys xs with
      | none => none
      | some rest => some (ps ++ rest)

/-- `detect_key_points(image, grid_size, current_corners, num_points_in_cell)`
parameterised by the external `corners_fast9` detector `fast`.  Grid setup
uses wrapping `u32` arithmetic; the result is the in-order concatenation of
the per-cell accepted corners (`none` would mean some cell's while loop ran
out of fuel — the termination theorem shows this never happens). -/
def detect_key_points (fast : GrayImage → Nat → List Corner)
    (image : GrayImage) (grid_size : Nat) (current_corners : List Corner)
    (num_points_in_cell : Nat) : Option (List Corner) :=
  rowLoop fast image (seededGrids image grid_size current_corners) grid_size
    (gridStart image.width grid_size) (gridStart image.height grid_size)
    num_points_in_cell
    (stepRange (gridStart image.height grid_size) (gridStop image.height grid_size) grid_size)
    (stepRange (gridStart image.width grid_size) (gridStop image.width grid_size) grid_size)

/-! ## Theorems -/

/-- `Result::is_ok` for the embedded error type. -/
def isOkE (e : Except ImageError Image) : Bool :=
  match e with
  | .ok _ => true
  | .error _ => false

/-- `Result::is_ok` through the panic-aware model: true only for a
returning, successful execution. -/
def isOkO (o : Option (Except ImageError Image)) : Bool :=
  match o with
  | some (.ok _) => true
  | _ => false

lemma hessian_response_opt_eq (src dst : Image) (hw : src.cols ≠ 0) :
    hessian_response_opt src dst = some (hessian_response src dst) := by
  rw [hessian_response_opt, hessian_response]
  split
  · rfl
  · simp [hw]

/-- C9: `se2_exp_matrix` applied to the zero twist `(0, 0, 0)` returns
exactly the 3×3 identity matrix (the small-angle Taylor branch is taken,
the translation components are exactly 0, and the rotation block is
exactly the identity), for any float `cos`/`sin` intrinsics that are exact
at 0. -/
theorem se2_exp_zero_twist_is_identity (fcos fsin : ℚ → ℚ)
    (hc : fcos 0 = 1) (hs : fsin 0 = 0) :
    se2_exp_matrix fcos fsin ⟨0, 0, 0⟩ = ⟨1, 0, 0, 0, 1, 0, 0, 0, 1⟩ := by
  simp [se2_exp_matrix, f32EPSILON, hc, hs]

/-- C9 witness: instantiating the intrinsics with functions exact at 0. -/
theorem se2_exp_zero_twist_is_identity_witness :
    se2_exp_matrix (fun _ => 1) (fun _ => 0) ⟨0, 0, 0⟩ = ⟨1, 0, 0, 0, 1, 0, 0, 0, 1⟩ :=
  se2_exp_zero_twist_is_identity (fun _ => 1) (fun _ => 0) rfl rfl

/-- C10: `point_in_bound` computes `width - radius` and `height - radius`
with wrapping `u32` subtraction and no guard, so for some radius strictly
greater than the image width there is a keypoint lying at or beyond the
image width for which the predicate is still true (it is not vacuously
false for oversized radii). -/
theorem point_in_bound_oversized_radius_not_vacuous :
    ∃ (height width radius : Nat) (kp : Corner),
      width < radius ∧ width ≤ kp.x ∧ point_in_bound kp height width radius = true :=
  ⟨10, 10, 20, ⟨100, 100, 0⟩, by decide, by decide, by decide⟩

/-- C7 counterexample: with `sigma1 = 0` (non-positive) and equal-shaped
1×1 images, `dog_response` does **not** fail: it returns `Except.ok`
(the identity is used for the external blur collaborator, which the spec
gives no sigma validation of its own). -/
theorem dog_response_zero_sigma_returns_ok :
    isOkE (dog_response (fun i _ _ => i) ⟨1, 1, [0]⟩ ⟨1, 1, [0]⟩ 0 1) = true := by
  decide

/-- C7 amended: `dog_response` performs no sigma validation.  For any
`sigma ≤ 0` the derived kernel size is the degenerate value 1, and for
equal-shaped images `dog_response` proceeds with the blur calls and
returns `Ok`; it never reports an invalid-parameter error. -/
theorem dog_response_no_sigma_validation (sigma : ℚ) (hs : sigma ≤ 0) :
    get_kernel_size sigma = 1 ∧
    ∀ (blur : Image → Nat → ℚ → Image) (src dst : Image) (sigma2 : ℚ),
      src.size = dst.size →
      isOkE (dog_response blur src dst sigma sigma2) = true := by
  constructor
  · by_cases h0 : sigma = 0
    · subst h0; norm_num [get_kernel_size]
    · have hlt : sigma < 0 := lt_of_le_of_ne hs h0
      have hv : (2 * 4 * sigma + 1 : ℚ) < 1 := by linarith
      have hfl : ⌊(2 * 4 * sigma + 1 : ℚ)⌋ < 1 := by
        have := Int.floor_lt.mpr (by push_cast; linarith : (2 * 4 * sigma + 1 : ℚ) < ((1 : ℤ) : ℚ))
        exact this
      have htn : (⌊(2 * 4 * sigma + 1 : ℚ)⌋).toNat = 0 := Int.toNat_eq_zero.mpr (by omega)
      simp only [get_kernel_size, htn]
      norm_num
  · intro blur src dst sigma2 hsz
    simp [dog_response, isOkE, hsz]

/-- C7 amended witness: `sigma = 0` with concrete 1×1 images. -/
theorem dog_response_no_sigma_validation_witness :
    get_kernel_size 0 = 1 ∧
    isOkE (dog_response (fun i _ _ => i) ⟨1, 1, [0]⟩ ⟨1, 1, [0]⟩ 0 1) = true :=
  ⟨(dog_response_no_sigma_validation 0 le_rfl).1,
   (dog_response_no_sigma_validation 0 le_rfl).2 (fun i _ _ => i) ⟨1, 1, [0]⟩ ⟨1, 1, [0]⟩ 1 rfl⟩

/-- C2 counterexample: the claim's universal "returns without error" over
all equal-shaped pairs fails at a zero-width pair: for the equal-shaped
images with `rows = 1, cols = 0`, `hessian_response` does not return at
all — rayon's `par_chunks_exact_mut(src.cols())` panics on chunk size 0
(modelled by `none` in `hessian_response_opt`). -/
theorem hessian_response_zero_width_panics :
    (⟨1, 0, []⟩ : Image).size = (⟨1, 0, []⟩ : Image).size ∧
    (hessian_response_opt ⟨1, 0, []⟩ ⟨1, 0, []⟩).isNone = true := by
  exact ⟨rfl, by decide⟩

/-- C2 amended: for every pair of equal-shaped single-channel float images
**of nonzero width**, each of `gftt_response`, `hessian_response` and
`dog_response` returns without error (on zero-width equal-shaped images
`hessian_response` panics in rayon's chunking rather than returning); and
for every pair whose shapes differ, each returns the
`ImageError::InvalidImageSize` error carrying both shapes (src cols/rows
and dst cols/rows) without producing a written destination — the shape
check precedes the chunking, so the mismatch behaviour needs no width
restriction. -/
theorem response_functions_shape_check_nonzero_width (grad : Image → Image × Image)
    (blur : Image → Nat → ℚ → Image) (pw : ℚ → ℚ → ℚ) (sigma1 sigma2 : ℚ)
    (src dst src2 dst2 : Image)
    (heq : src.size = dst.size) (hw : src.cols ≠ 0) (hne : src2.size ≠ dst2.size) :
    isOkE (gftt_response grad blur pw src dst) = true ∧
    isOkO (hessian_response_opt src dst) = true ∧
    isOkE (dog_response blur src dst sigma1 sigma2) = true ∧
    gftt_response grad blur pw src2 dst2 =
      Except.error (.invalidImageSize src2.cols src2.rows dst2.cols dst2.rows) ∧
    hessian_response_opt src2 dst2 =
      some (Except.error (.invalidImageSize src2.cols src2.rows dst2.cols dst2.rows)) ∧
    dog_response blur src2 dst2 sigma1 sigma2 =
      Except.error (.invalidImageSize src2.cols src2.rows dst2.cols dst2.rows) := by
  refine ⟨?_, ?_, ?_, ?_, ?_, ?_⟩ <;>
    simp [gftt_response, hessian_response_opt, dog_response, isOkE, isOkO, heq, hw, hne]

/-- C2 amended witness: concrete collaborators, a matching width-1 pair
and a mismatched 1×1 / 1×2 pair. -/
theorem response_functions_shape_check_nonzero_width_witness :
    isOkO (hessian_response_opt ⟨1, 1, [0]⟩ ⟨1, 1, [0]⟩) = true ∧
    hessian_response_opt ⟨1, 1, [0]⟩ ⟨1, 2, [0, 0]⟩ =
      some (Except.error (.invalidImageSize 1 1 2 1)) :=
  ⟨(response_functions_shape_check_nonzero_width (fun i => (i, i)) (fun i _ _ => i)
      (fun a _ => a) 1 1 ⟨1, 1, [0]⟩ ⟨1, 1, [0]⟩ ⟨1, 1, [0]⟩ ⟨1, 2, [0, 0]⟩
      rfl (by decide) (by decide)).2.1,
   (response_functions_shape_check_nonzero_width (fun i => (i, i)) (fun i _ _ => i)
      (fun a _ => a) 1 1 ⟨1, 1, [0]⟩ ⟨1, 1, [0]⟩ ⟨1, 1, [0]⟩ ⟨1, 2, [0, 0]⟩
      rfl (by decide) (by decide)).2.2.2.2.1⟩

/-! ### Hessian response: interior stencil value (C3) and border
preservation (C4) -/

/-- The source pixel at column `x`, row `y` of a row-major image. -/
def srcAt (img : Image) (x y : Nat) : ℚ := img.data.getD (y * img.cols + x) 0

lemma getD_range_map (f : Nat → ℚ) (n i : Nat) (h : i < n) :
    ((List.range n).map f).getD i 0 = f i := by
  rw [List.getD_eq_getElem?_getD, List.getElem?_map, List.getElem?_range h]
  rfl

lemma flat_index_div (cols x y : Nat) (hx : x < cols) : (y * cols + x) / cols = y := by
  have h0 : 0 < cols := Nat.pos_of_ne_zero (by omega)
  rw [Nat.add_comm, Nat.mul_comm, Nat.add_mul_div_left _ _ h0, Nat.div_eq_of_lt hx]
  omega

lemma flat_index_mod (cols x y : Nat) (hx : x < cols) : (y * cols + x) % cols = x := by
  rw [Nat.add_comm, Nat.mul_comm, Nat.add_mul_mod_self_left, Nat.mod_eq_of_lt hx]

lemma flat_index_lt (cols rows x y : Nat) (hx : x < cols) (hy : y < rows) :
    y * cols + x < rows * cols := by
  have h1 : y * cols + x < (y + 1) * cols := by
    have : (y + 1) * cols = y * cols + cols := by ring
    omega
  have h2 : (y + 1) * cols ≤ rows * cols := Nat.mul_le_mul_right _ (by omega)
  omega

lemma hessian_response_ok (src dst : Image) (h : src.size = dst.size) :
    hessian_response src dst = Except.ok ⟨dst.rows, dst.cols, hessianData src dst.data⟩ := by
  simp [hessian_response, h]

/-- The 5×5 input of the reference test of `hessian_response`. -/
def hessianTestSrc : Image :=
  ⟨5, 5, [0, 0, 0, 0, 0,
          0, 1, 1, 1, 0,
          0, 1, 0, 1, 0,
          0, 1, 1, 1, 0,
          0, 0, 0, 0, 0]⟩

/-- A zero-initialised 5×5 destination. -/
def hessianTestDst0 : Image := ⟨5, 5, List.replicate 25 0⟩

/-- The exact 5×5 output the spec lists for the reference test. -/
def hessianTestExpected : Image :=
  ⟨5, 5, [0, 0, 0, 0, 0,
          0, 1, 0, 1, 0,
          0, 0, 4, 0, 0,
          0, 1, 0, 1, 0,
          0, 0, 0, 0, 0]⟩

/-- C3: for every pair of equal-shaped single-channel float images,
`hessian_response` writes at every interior pixel `(x, y)` the value
`dxx*dyy - dxy^2` with `dxx = I(x-1,y) - 2I(x,y) + I(x+1,y)`,
`dyy = I(x,y-1) - 2I(x,y) + I(x,y+1)` and
`dxy = 0.25*(I(x+1,y+1) - I(x-1,y+1) - I(x+1,y-1) + I(x-1,y-1))`
(the source computes `dxy` with the opposite sign, which squares to the
same response); and on the 5×5 reference input it produces exactly the
5×5 output the spec lists. -/
theorem hessian_interior_stencil_value :
    (∀ (src dst out : Image) (x y : Nat),
      src.size = dst.size →
      hessian_response src dst = Except.ok out →
      1 ≤ x → x ≤ src.cols - 2 → 1 ≤ y → y ≤ src.rows - 2 →
      out.data.getD (y * src.cols + x) 0 =
        (srcAt src (x-1) y - 2 * srcAt src x y + srcAt src (x+1) y) *
          (srcAt src x (y-1) - 2 * srcAt src x y + srcAt src x (y+1)) -
        (1/4 * (srcAt src (x+1) (y+1) - srcAt src (x-1) (y+1)
            - srcAt src (x+1) (y-1) + srcAt src (x-1) (y-1))) ^ 2)
    ∧ hessian_response hessianTestSrc hessianTestDst0 = Except.ok hessianTestExpected := by
  constructor
  · intro src dst out x y hsz hok hx1 hx2 hy1 hy2
    rw [hessian_response_ok src dst hsz] at hok
    injection hok with hout
    subst hout
    have hc3 : 3 ≤ src.cols := by omega
    have hr3 : 3 ≤ src.rows := by omega
    have hx : x < src.cols := by omega
    have hy : y < src.rows := by omega
    obtain ⟨x', rfl⟩ : ∃ x', x = x' + 1 := ⟨x - 1, by omega⟩
    obtain ⟨y', rfl⟩ : ∃ y', y = y' + 1 := ⟨y - 1, by omega⟩
    show (hessianData src dst.data).getD ((y' + 1) * src.cols + (x' + 1)) 0 = _
    rw [hessianData,
      getD_range_map _ _ _ (flat_index_lt src.cols src.rows _ _ hx hy),
      hessianPixel,
      flat_index_div src.cols (x' + 1) (y' + 1) hx,
      flat_index_mod src.cols (x' + 1) (y' + 1) hx,
      if_neg (by omega)]
    have h1 : (y' + 1) * src.cols = y' * src.cols + src.cols := by ring
    have h5 : (y' + 1 + 1) * src.cols = (y' + 1) * src.cols + src.cols := by ring
    have e1 : (y' + 1) * src.cols + (x' + 1) - 1 = (y' + 1) * src.cols + x' := by omega
    have e2 : (y' + 1) * src.cols + (x' + 1) + 1 = (y' + 1) * src.cols + (x' + 1 + 1) := by
      omega
    have e3 : (y' + 1) * src.cols + (x' + 1) - src.cols = y' * src.cols + (x' + 1) := by
      rw [h1]; omega
    have e4 : (y' + 1) * src.cols + (x' + 1) - src.cols - 1 = y' * src.cols + x' := by
      rw [h1]; omega
    have e5 : (y' + 1) * src.cols + (x' + 1) - src.cols + 1 =
        y' * src.cols + (x' + 1 + 1) := by
      rw [h1]; omega
    have e6 : (y' + 1) * src.cols + (x' + 1) + src.cols =
        (y' + 1 + 1) * src.cols + (x' + 1) := by ring
    have e7 : (y' + 1) * src.cols + (x' + 1) + src.cols - 1 =
        (y' + 1 + 1) * src.cols + x' := by
      rw [h5, h1]; omega
    have e8 : (y' + 1) * src.cols + (x' + 1) + src.cols + 1 =
        (y' + 1 + 1) * src.cols + (x' + 1 + 1) := by ring
    rw [e4, e5, e7, e8, e1, e2, e3, e6]
    simp only [srcAt, Nat.add_sub_cancel]
    ring
  · have hrange : List.range (hessianTestSrc.rows * hessianTestSrc.cols) =
        [0, 1, 2, 3, 4, 5, 6, 7, 8, 9, 10, 11, 12, 13, 14, 15, 16, 17, 18, 19,
         20, 21, 22, 23, 24] := by decide
    have hdata : hessianData hessianTestSrc hessianTestDst0.data = hessianTestExpected.data := by
      simp only [hessianData, hrange, List.map_cons, List.map_nil]
      norm_num [hessianPixel, hessianTestSrc, hessianTestDst0, hessianTestExpected]
    rw [hessian_response_ok hessianTestSrc hessianTestDst0 rfl, hdata]
    rfl

/-- C3 witness: the center pixel `(2, 2)` of the 5×5 reference input gets
the stencil value `4`. -/
theorem hessian_interior_stencil_value_witness :
    hessianTestExpected.data.getD (2 * hessianTestSrc.cols + 2) 0 =
      (srcAt hessianTestSrc 1 2 - 2 * srcAt hessianTestSrc 2 2 + srcAt hessianTestSrc 3 2) *
        (srcAt hessianTestSrc 2 1 - 2 * srcAt hessianTestSrc 2 2 + srcAt hessianTestSrc 2 3) -
      (1/4 * (srcAt hessianTestSrc 3 3 - srcAt hessianTestSrc 1 3
          - srcAt hessianTestSrc 3 1 + srcAt hessianTestSrc 1 1)) ^ 2 :=
  hessian_interior_stencil_value.1 hessianTestSrc hessianTestDst0 hessianTestExpected 2 2
    rfl hessian_interior_stencil_value.2 (by decide) (by decide) (by decide) (by decide)

/-- A 5×5 destination filled with the sentinel value 7, to observe border
preservation. -/
def hessianTestDst7 : Image := ⟨5, 5, List.replicate 25 7⟩

/-- The output of `hessian_response` on the reference input with the
sentinel-filled destination: interior recomputed, outermost ring kept at 7. -/
def hessianTestOut7 : Image :=
  ⟨5, 5, [7, 7, 7, 7, 7,
          7, 1, 0, 1, 7,
          7, 0, 4, 0, 7,
          7, 1, 0, 1, 7,
          7, 7, 7, 7, 7]⟩

/-- C4: a successful `hessian_response` call leaves every pixel of the
outermost ring of the destination (row 0, row `rows-1`, column 0, column
`cols-1`) equal to its value before the call. -/
theorem hessian_preserves_border (src dst out : Image) (x y : Nat)
    (hsz : src.size = dst.size)
    (hok : hessian_response src dst = Except.ok out)
    (hx : x < src.cols) (hy : y < src.rows)
    (hb : x = 0 ∨ x = src.cols - 1 ∨ y = 0 ∨ y = src.rows - 1) :
    out.data.getD (y * src.cols + x) 0 = dst.data.getD (y * src.cols + x) 0 := by
  rw [hessian_response_ok src dst hsz] at hok
  injection hok with hout
  subst hout
  show (hessianData src dst.data).getD (y * src.cols + x) 0 = _
  rw [hessianData,
    getD_range_map _ _ _ (flat_index_lt src.cols src.rows _ _ hx hy),
    hessianPixel,
    flat_index_div src.cols x y hx,
    flat_index_mod src.cols x y hx,
    if_pos (by tauto)]

/-- C4 witness: corner pixel `(0, 0)` of the sentinel-filled destination
keeps the value 7. -/
theorem hessian_preserves_border_witness :
    hessianTestOut7.data.getD (0 * hessianTestSrc.cols + 0) 0 =
      hessianTestDst7.data.getD (0 * hessianTestSrc.cols + 0) 0 :=
  hessian_preserves_border hessianTestSrc hessianTestDst7 hessianTestOut7 0 0 rfl
    (by
      have hrange : List.range (hessianTestSrc.rows * hessianTestSrc.cols) =
          [0, 1, 2, 3, 4, 5, 6, 7, 8, 9, 10, 11, 12, 13, 14, 15, 16, 17, 18, 19,
           20, 21, 22, 23, 24] := by decide
      have hdata : hessianData hessianTestSrc hessianTestDst7.data = hessianTestOut7.data := by
        simp only [hessianData, hrange, List.map_cons, List.map_nil]
        norm_num [hessianPixel, hessianTestSrc, hessianTestDst7, hessianTestOut7]
      rw [hessian_response_ok hessianTestSrc hessianTestDst7 rfl, hdata]
      rfl)
    (by decide) (by decide) (Or.inl rfl)

/-! ### Detector termination (C1) -/

lemma cellWhile_isSome (fast : GrayImage → Nat → List Corner) (view : GrayImage)
    (h w cx cy quota : Nat) :
    ∀ (fuel added threshold : Nat) (acc : List Corner), threshold < 5 * fuel →
      (cellWhile fast view h w cx cy quota fuel added threshold acc).isSome = true := by
  intro fuel
  induction fuel with
  | zero => intro added t acc ht; exact absurd ht (by omega)
  | succ n ih =>
    intro added t acc ht
    rw [cellWhile]
    split
    · split
      · simp
      · exact ih _ _ _ (by omega)
    · simp

lemma cellContribution_some (fast : GrayImage → Nat → List Corner) (image : GrayImage)
    (grids : List (List Nat)) (grid_size x_start y_start quota x y : Nat) :
    ∃ l, cellContribution fast image grids grid_size x_start y_start quota x y = some l := by
  rw [cellContribution]
  split
  · exact ⟨[], rfl⟩
  · exact Option.isSome_iff_exists.mp
      (cellWhile_isSome fast _ image.height image.width x y quota 9 0 40 [] (by omega))

lemma colLoop_some (fast : GrayImage → Nat → List Corner) (image : GrayImage)
    (grids : List (List Nat)) (grid_size x_start y_start quota x : Nat) :
    ∀ ys : List Nat,
      ∃ l, colLoop fast image grids grid_size x_start y_start quota x ys = some l := by
  intro ys
  induction ys with
  | nil => exact ⟨[], rfl⟩
  | cons y ys ih =>
    obtain ⟨c, hc⟩ := cellContribution_some fast image grids grid_size x_start y_start quota x y
    obtain ⟨r, hr⟩ := ih
    exact ⟨c ++ r, by rw [colLoop, hc, hr]⟩

lemma rowLoop_some (fast : GrayImage → Nat → List Corner) (image : GrayImage)
    (grids : List (List Nat)) (grid_size x_start y_start quota : Nat) (ys : List Nat) :
    ∀ xs : List Nat,
      ∃ l, rowLoop fast image grids grid_size x_start y_start quota ys xs = some l := by
  intro xs
  induction xs with
  | nil => exact ⟨[], rfl⟩
  | cons x xs ih =>
    obtain ⟨c, hc⟩ := colLoop_some fast image grids grid_size x_start y_start quota x ys
    obtain ⟨r, hr⟩ := ih
    exact ⟨c ++ r, by rw [rowLoop, hc, hr]⟩

/-- C1: `detect_key_points` terminates for every input grayscale image,
every `grid_size ≥ 1` and every quota, including `grid_size` exceeding the
image dimensions (where the wrapping `u32` grid-setup expressions
`w / grid_size - 1` and `h / grid_size - 1` make the iteration bands huge
but still finite): the embedding's fueled while loop never exhausts its
fuel, all loops are over finite ranges, and a result list is always
produced. -/
theorem detect_key_points_terminates (fast : GrayImage → Nat → List Corner)
    (image : GrayImage) (grid_size : Nat) (current_corners : List Corner)
    (num_points_in_cell : Nat) (_hgs : 1 ≤ grid_size) :
    (detect_key_points fast image grid_size current_corners num_points_in_cell).isSome
      = true := by
  rw [detect_key_points]
  obtain ⟨l, hl⟩ := rowLoop_some fast image (seededGrids image grid_size current_corners)
    grid_size (gridStart image.width grid_size) (gridStart image.height grid_size)
    num_points_in_cell
    (stepRange (gridStart image.height grid_size) (gridStop image.height grid_size) grid_size)
    (stepRange (gridStart image.width grid_size) (gridStop image.width grid_size) grid_size)
  rw [hl]
  rfl

/-- C1 witness: a 64×64 image, `grid_size = 32`, quota 1. -/
theorem detect_key_points_terminates_witness :
    (detect_key_points (fun _ _ => [⟨0, 0, 1⟩]) ⟨64, 64, fun _ _ => 0⟩ 32 [] 1).isSome
      = true :=
  detect_key_points_terminates (fun _ _ => [⟨0, 0, 1⟩]) ⟨64, 64, fun _ _ => 0⟩ 32 [] 1
    (by decide)

/-! ### Edge margin (C5) and occupied-cell exclusion (C6) -/

lemma acceptPoints_mem_bound (h w cx cy quota : Nat) :
    ∀ (l : List Corner) (added : Nat) (p : Corner),
      p ∈ (acceptPoints h w cx cy quota l added).1 →
      point_in_bound p h w 19 = true := by
  intro l
  induction l with
  | nil => intro added p hp; simp [acceptPoints] at hp
  | cons q rest ih =>
    intro added p hp
    rw [acceptPoints] at hp
    split at hp
    · simp at hp
    · split at hp
      · next hb =>
        rcases List.mem_cons.mp hp with rfl | hm
        · exact hb
        · exact ih _ _ hm
      · exact ih _ _ hp

lemma cellWhile_mem (fast : GrayImage → Nat → List Corner) (view : GrayImage)
    (h w cx cy quota : Nat) :
    ∀ (fuel added t : Nat) (acc res : List Corner) (p : Corner),
      cellWhile fast view h w cx cy quota fuel added t acc = some res → p ∈ res →
      p ∈ acc ∨ point_in_bound p h w 19 = true := by
  intro fuel
  induction fuel with
  | zero => intro added t acc res p hc; rw [cellWhile] at hc; exact absurd hc (by simp)
  | succ n ih =>
    intro added t acc res p hc hp
    rw [cellWhile] at hc
    split at hc
    · split at hc
      · injection hc with hc
        subst hc
        rcases List.mem_append.mp hp with h1 | h2
        · exact Or.inl h1
        · exact Or.inr (acceptPoints_mem_bound h w cx cy quota _ _ p h2)
      · rcases ih _ _ _ _ _ hc hp with h1 | h2
        · rcases List.mem_append.mp h1 with ha | hn
          · exact Or.inl ha
          · exact Or.inr (acceptPoints_mem_bound h w cx cy quota _ _ p hn)
        · exact Or.inr h2
    · injection hc with hc
      subst hc
      exact Or.inl hp

lemma cellContribution_mem (fast : GrayImage → Nat → List Corner) (image : GrayImage)
    (grids : List (List Nat)) (grid_size x_start y_start quota x y : Nat)
    (l : List Corner) (p : Corner)
    (hc : cellContribution fast image grids grid_size x_start y_start quota x y = some l)
    (hp : p ∈ l) :
    point_in_bound p image.height image.width 19 = true := by
  rw [cellContribution] at hc
  split at hc
  · injection hc with hc; subst hc; simp at hp
  · rcases cellWhile_mem fast _ image.height image.width x y quota 9 0 40 [] l p hc hp with
      h1 | h2
    · simp at h1
    · exact h2

lemma colLoop_mem (fast : GrayImage → Nat → List Corner) (image : GrayImage)
    (grids : List (List Nat)) (grid_size x_start y_start quota x : Nat) :
    ∀ (ys : List Nat) (res : List Corner) (p : Corner),
      colLoop fast image grids grid_size x_start y_start quota x ys = some res → p ∈ res →
      ∃ y ∈ ys, ∃ l,
        cellContribution fast image grids grid_size x_start y_start quota x y = some l ∧
        p ∈ l := by
  intro ys
  induction ys with
  | nil =>
    intro res p hc hp
    rw [colLoop] at hc
    injection hc with hc
    subst hc
    simp at hp
  | cons y ys ih =>
    intro res p hc hp
    rw [colLoop] at hc
    split at hc
    · exact absurd hc (by simp)
    · next ps hps =>
      split at hc
      · exact absurd hc (by simp)
      · next rest hrest =>
        injection hc with hc
        subst hc
        rcases List.mem_append.mp hp with h1 | h2
        · exact ⟨y, List.mem_cons_self y ys, ps, hps, h1⟩
        · obtain ⟨y', hy', l, hl, hpl⟩ := ih rest p hrest h2
          exact ⟨y', List.mem_cons_of_mem y hy', l, hl, hpl⟩

lemma rowLoop_mem (fast : GrayImage → Nat → List Corner) (image : GrayImage)
    (grids : List (List Nat)) (grid_size x_start y_start quota : Nat) (ys : List Nat) :
    ∀ (xs : List Nat) (res : List Corner) (p : Corner),
      rowLoop fast image grids grid_size x_start y_start quota ys xs = some res → p ∈ res →
      ∃ x ∈ xs, ∃ y ∈ ys, ∃ l,
        cellContribution fast image grids grid_size x_start y_start quota x y = some l ∧
        p ∈ l := by
  intro xs
  induction xs with
  | nil =>
    intro res p hc hp
    rw [rowLoop] at hc
    injection hc with hc
    subst hc
    simp at hp
  | cons x xs ih =>
    intro res p hc hp
    rw [rowLoop] at hc
    split at hc
    · exact absurd hc (by simp)
    · next ps hps =>
      split at hc
      · exact absurd hc (by simp)
      · next rest hrest =>
        injection hc with hc
        subst hc
        rcases List.mem_append.mp hp with h1 | h2
        · obtain ⟨y, hy, l, hl, hpl⟩ :=
            colLoop_mem fast image grids grid_size x_start y_start quota x ys ps p hps h1
          exact ⟨x, List.mem_cons_self x xs, y, hy, l, hl, hpl⟩
        · obtain ⟨x', hx', y, hy, l, hl, hpl⟩ := ih rest p hrest h2
          exact ⟨x', List.mem_cons_of_mem x hx', y, hy, l, hl, hpl⟩

/-- C5: every keypoint in the list returned by `detect_key_points`
satisfies the 19-pixel edge-margin predicate
`point_in_bound(keypoint, h, w, 19)`, where `h` and `w` are the input
image's height and width. -/
theorem detect_key_points_edge_margin (fast : GrayImage → Nat → List Corner)
    (image : GrayImage) (grid_size : Nat) (current_corners : List Corner)
    (num_points_in_cell : Nat) (res : List Corner) (p : Corner)
    (hdet : detect_key_points fast image grid_size current_corners num_points_in_cell
      = some res)
    (hp : p ∈ res) :
    point_in_bound p image.height image.width 19 = true := by
  rw [detect_key_points] at hdet
  obtain ⟨x, hx, y, hy, l, hl, hpl⟩ :=
    rowLoop_mem fast image (seededGrids image grid_size current_corners) grid_size
      (gridStart image.width grid_size) (gridStart image.height grid_size)
      num_points_in_cell _ _ res p hdet hp
  exact cellContribution_mem fast image _ grid_size _ _ num_points_in_cell x y l p hl hpl

/-- C5 witness: the single accepted keypoint `(32, 32)` of the concrete
64×64 run is 19 pixels inside every edge. -/
theorem detect_key_points_edge_margin_witness :
    point_in_bound ⟨32, 32, 1⟩ 64 64 19 = true :=
  detect_key_points_edge_margin (fun _ _ => [⟨0, 0, 1⟩]) ⟨64, 64, fun _ _ => 0⟩ 32 [] 1
    [⟨32, 32, 1⟩] ⟨32, 32, 1⟩ (by decide) (by decide)

/-- C6: every keypoint returned by `detect_key_points` originates from a
visited grid cell whose seeded occupancy counter is 0; cells whose counter
is greater than 0 after seeding contribute no keypoint. -/
theorem detect_key_points_occupied_cells_excluded
    (fast : GrayImage → Nat → List Corner) (image : GrayImage) (grid_size : Nat)
    (current_corners : List Corner) (num_points_in_cell : Nat)
    (res : List Corner) (p : Corner)
    (hdet : detect_key_points fast image grid_size current_corners num_points_in_cell
      = some res)
    (hp : p ∈ res) :
    ∃ x ∈ stepRange (gridStart image.width grid_size) (gridStop image.width grid_size)
        grid_size,
    ∃ y ∈ stepRange (gridStart image.height grid_size) (gridStop image.height grid_size)
        grid_size,
      gridGet (seededGrids image grid_size current_corners)
          ((y - gridStart image.height grid_size) / grid_size)
          ((x - gridStart image.width grid_size) / grid_size) = 0 ∧
      ∃ l, cellWhile fast (image.view x y grid_size grid_size) image.height image.width
            x y num_points_in_cell 9 0 40 [] = some l ∧ p ∈ l := by
  rw [detect_key_points] at hdet
  obtain ⟨x, hx, y, hy, l, hl, hpl⟩ :=
    rowLoop_mem fast image (seededGrids image grid_size current_corners) grid_size
      (gridStart image.width grid_size) (gridStart image.height grid_size)
      num_points_in_cell _ _ res p hdet hp
  rw [cellContribution] at hl
  split at hl
  · injection hl with hl; subst hl; simp at hpl
  · next hocc => exact ⟨x, hx, y, hy, by omega, l, hl, hpl⟩

/-- C6 witness: in the concrete 64×64 run the accepted keypoint comes from
the zero-occupancy cell at `(32, 32)`. -/
theorem detect_key_points_occupied_cells_excluded_witness :
    ∃ x ∈ stepRange (gridStart 64 32) (gridStop 64 32) 32,
    ∃ y ∈ stepRange (gridStart 64 32) (gridStop 64 32) 32,
      gridGet (seededGrids ⟨64, 64, fun _ _ => 0⟩ 32 []) ((y - gridStart 64 32) / 32)
          ((x - gridStart 64 32) / 32) = 0 ∧
      ∃ l, cellWhile (fun _ _ => [⟨0, 0, 1⟩])
            (GrayImage.view ⟨64, 64, fun _ _ => 0⟩ x y 32 32) 64 64 x y 1 9 0 40 []
            = some l ∧ (⟨32, 32, 1⟩ : Corner) ∈ l :=
  detect_key_points_occupied_cells_excluded (fun _ _ => [⟨0, 0, 1⟩])
    ⟨64, 64, fun _ _ => 0⟩ 32 [] 1 [⟨32, 32, 1⟩] ⟨32, 32, 1⟩ (by decide) (by decide)

/-! ### Ascending-score acceptance within a threshold pass (C8) -/

lemma acceptPoints_fst_eq (h w cx cy quota : Nat) :
    ∀ (l : List Corner) (added : Nat),
      (acceptPoints h w cx cy quota l added).1 =
        ((l.map (translateCorner cx cy)).filter
          (fun q => point_in_bound q h w 19)).take (quota - added) := by
  intro l
  induction l with
  | nil => intro added; simp [acceptPoints]
  | cons q rest ih =>
    intro added
    rw [acceptPoints]
    split
    · next hq =>
      simp [Nat.sub_eq_zero_of_le hq]
    · next hq =>
      have hsub : quota - added = (quota - (added + 1)) + 1 := by omega
      split
      · next hb =>
        have hfc : List.filter (fun r => point_in_bound r h w 19)
            (translateCorner cx cy q :: List.map (translateCorner cx cy) rest) =
            translateCorner cx cy q ::
              List.filter (fun r => point_in_bound r h w 19)
                (List.map (translateCorner cx cy) rest) := List.filter_cons_of_pos hb
        rw [List.map_cons, hfc, hsub, List.take_succ_cons, ← ih (added + 1)]
      · next hb =>
        have hfc : List.filter (fun r => point_in_bound r h w 19)
            (translateCorner cx cy q :: List.map (translateCorner cx cy) rest) =
            List.filter (fun r => point_in_bound r h w 19)
              (List.map (translateCorner cx cy) rest) :=
          List.filter_cons_of_neg (by simpa using hb)
        rw [List.map_cons, hfc]
        exact ih added

lemma mem_insertCorner (p q : Corner) :
    ∀ l : List Corner, q ∈ insertCorner p l ↔ q = p ∨ q ∈ l := by
  intro l
  induction l with
  | nil => simp [insertCorner]
  | cons r rest ih =>
    rw [insertCorner]
    split
    · simp [or_comm, or_assoc, or_left_comm]
    · simp [ih, or_comm, or_assoc, or_left_comm]

lemma pairwise_insertCorner (p : Corner) :
    ∀ l : List Corner, l.Pairwise (fun a b => a.score ≤ b.score) →
      (insertCorner p l).Pairwise (fun a b => a.score ≤ b.score) := by
  intro l
  induction l with
  | nil => intro _; simp [insertCorner]
  | cons r rest ih =>
    intro hl
    rcases List.pairwise_cons.mp hl with ⟨hr, hrest⟩
    rw [insertCorner]
    split
    · next hle =>
      refine List.pairwise_cons.mpr ⟨?_, hl⟩
      intro b hb
      rcases List.mem_cons.mp hb with rfl | hbm
      · exact hle
      · exact le_trans hle (hr b hbm)
    · next hgt =>
      refine List.pairwise_cons.mpr ⟨?_, ih hrest⟩
      intro b hb
      rcases (mem_insertCorner p b rest).mp hb with rfl | hbm
      · exact le_of_not_le hgt
      · exact hr b hbm

lemma pairwise_sortByScore :
    ∀ l : List Corner, (sortByScore l).Pairwise (fun a b => a.score ≤ b.score) := by
  intro l
  induction l with
  | nil => simp [sortByScore]
  | cons p rest ih => rw [sortByScore]; exact pairwise_insertCorner p _ ih

/-- C8: within one threshold pass of a cell, the detector sorts the FAST
candidates by ascending score and accepts them in that order: the accepted
list is exactly the first `quota - points_added` in-bound candidates of the
ascending-sorted, frame-translated candidate list, and it is itself sorted
by ascending score — so when in-bound candidates outnumber the remaining
quota, the lowest-scoring ones are the ones accepted. -/
theorem threshold_pass_accepts_lowest_scores_first (h w cx cy quota : Nat)
    (candidates : List Corner) (added : Nat) :
    (acceptPoints h w cx cy quota (sortByScore candidates) added).1 =
      (((sortByScore candidates).map (translateCorner cx cy)).filter
        (fun q => point_in_bound q h w 19)).take (quota - added) ∧
    ((acceptPoints h w cx cy quota (sortByScore candidates) added).1).Pairwise
      (fun a b => a.score ≤ b.score) := by
  refine ⟨acceptPoints_fst_eq h w cx cy quota (sortByScore candidates) added, ?_⟩
  rw [acceptPoints_fst_eq h w cx cy quota (sortByScore candidates) added]
  have h1 : ((sortByScore candidates).map (translateCorner cx cy)).Pairwise
      (fun a b => a.score ≤ b.score) := by
    rw [List.pairwise_map]
    exact pairwise_sortByScore candidates
  exact ((h1.sublist (List.filter_sublist _)).sublist (List.take_sublist _ _))

end KorniaRs
